import Mathlib

/-!
Verification development for age-plugin-bip39.

Shallow embedding of the repository's core logic (main.go and the Linux
keyring cache file).  Byte sequences are modelled as `List Nat` with each
element below 256; Go strings that only carry raw bytes (the base64 stanza
argument) are modelled as lists of character codes, while user-facing
strings (mnemonics, environment values, keyring payloads) are Lean
`String`s.  Calls into external libraries (SHA-512, curve25519, HKDF,
ChaCha20-Poly1305, the BIP39 word list code, `time.ParseDuration`, the
kernel keyring and the plugin prompt) are modelled as explicit parameters,
since their code is not part of this repository; everything this
repository itself computes (base64 RawStdEncoding.Strict, hex, clamping,
trimming, control flow) is embedded concretely.
-/

namespace AgePluginBip39

/-! ## base64 RawStdEncoding.Strict (encoding/base64 as used via `b64`) -/

/-- Value-to-character table of the standard base64 alphabet. -/
def sextetChar (n : Nat) : Nat :=
  if n < 26 then 65 + n
  else if n < 52 then 97 + (n - 26)
  else if n < 62 then 48 + (n - 52)
  else if n = 62 then 43
  else 47

/-- Character-to-value table of the standard base64 alphabet; characters
outside the alphabet (including the padding character) are rejected. -/
def charSextet (c : Nat) : Option Nat :=
  if 65 ≤ c ∧ c ≤ 90 then some (c - 65)
  else if 97 ≤ c ∧ c ≤ 122 then some (26 + (c - 97))
  else if 48 ≤ c ∧ c ≤ 57 then some (52 + (c - 48))
  else if c = 43 then some 62
  else if c = 47 then some 63
  else none

/-- Big-endian regrouping of 8-bit bytes into 6-bit values, including the
final partial group, exactly as the unpadded encoder emits them. -/
def bytesToSextets : List Nat → List Nat
  | [] => []
  | [a] => [a / 4, a % 4 * 16]
  | [a, b] => [a / 4, a % 4 * 16 + b / 16, b % 16 * 4]
  | a :: b :: c :: rest =>
      a / 4 :: (a % 4 * 16 + b / 16) :: (b % 16 * 4 + c / 64) :: c % 64 ::
        bytesToSextets rest

/-- Regrouping of 6-bit values back into bytes.  A trailing group of one
sextet is malformed; in strict mode the unused low bits of the final
sextet must be zero. -/
def sextetsToBytes : List Nat → Option (List Nat)
  | [] => some []
  | [_] => none
  | [a, b] => if b % 16 = 0 then some [a * 4 + b / 16] else none
  | [a, b, c] =>
      if c % 4 = 0 then some [a * 4 + b / 16, b % 16 * 16 + c / 4] else none
  | a :: b :: c :: d :: rest =>
      match sextetsToBytes rest with
      | none => none
      | some t =>
          some ((a * 4 + b / 16) :: (b % 16 * 16 + c / 4) :: (c % 4 * 64 + d) :: t)

/-- Character-wise table lookup for the decoder. -/
def mapCharSextet : List Nat → Option (List Nat)
  | [] => some []
  | c :: rest =>
      match charSextet c with
      | none => none
      | some v =>
          match mapCharSextet rest with
          | none => none
          | some t => some (v :: t)

/-- Model of `base64.RawStdEncoding.Strict().EncodeToString`. -/
def b64Encode (bs : List Nat) : List Nat :=
  (bytesToSextets bs).map sextetChar

/-- Model of `base64.RawStdEncoding.Strict().DecodeString`; the decoder
ignores carriage returns and newlines and rejects any other character
outside the alphabet. -/
def b64Decode (cs : List Nat) : Option (List Nat) :=
  (mapCharSextet (cs.filter (fun c => !(c == 10) && !(c == 13)))).bind sextetsToBytes

/-! ## hex (encoding/hex and fmt %x) -/

/-- Single hexadecimal digit value; `hex.DecodeString` accepts both cases. -/
def hexDigitVal (c : Char) : Option Nat :=
  if 48 ≤ c.toNat ∧ c.toNat ≤ 57 then some (c.toNat - 48)
  else if 97 ≤ c.toNat ∧ c.toNat ≤ 102 then some (c.toNat - 87)
  else if 65 ≤ c.toNat ∧ c.toNat ≤ 70 then some (c.toNat - 55)
  else none

/-- Model of `hex.DecodeString`: two digits per byte, odd length fails. -/
def hexDecodeChars : List Char → Option (List Nat)
  | [] => some []
  | [_] => none
  | a :: b :: rest =>
      match hexDigitVal a with
      | none => none
      | some ha =>
          match hexDigitVal b with
          | none => none
          | some hb =>
              match hexDecodeChars rest with
              | none => none
              | some t => some ((ha * 16 + hb) :: t)

/-- Lowercase hexadecimal digit, as produced by `fmt.Sprintf("%x", _)`. -/
def hexDigitChar (n : Nat) : Char :=
  if n < 10 then Char.ofNat (48 + n) else Char.ofNat (87 + n)

/-- Model of `fmt.Sprintf("%x", bytes)`. -/
def hexEncode (bs : List Nat) : String :=
  String.mk (bs.flatMap (fun b => [hexDigitChar (b / 16), hexDigitChar (b % 16)]))

/-! ## external cryptographic primitives -/

/-- The external cryptographic library functions called by main.go.
`x25519` returns `none` exactly when `curve25519.X25519` returns an error
(all-zero shared secret from a low-order point); `hkdfSha256 ikm salt info`
is the first 32 bytes read from `hkdf.New(sha256.New, ikm, salt, info)`;
`aeadSeal`/`aeadOpen` are ChaCha20-Poly1305 with the all-zero nonce as in
`aeadEncrypt`/`aeadDecrypt`. -/
structure CryptoPrims where
  sha512 : List Nat → List Nat
  x25519 : List Nat → List Nat → Option (List Nat)
  hkdfSha256 : List Nat → List Nat → List Nat → List Nat
  aeadSeal : List Nat → List Nat → List Nat
  aeadOpen : List Nat → List Nat → Option (List Nat)

/-- The external go-bip39 library functions called by main.go. -/
structure Bip39Lib where
  isMnemonicValid : String → Bool
  entropyFromMnemonic : String → Option (List Nat)

/-- Model of `curve25519.Basepoint`: the canonical base point encoding, 9 followed
by 31 zero bytes. -/
def basepoint : List Nat := 9 :: List.replicate 31 0

/-- The fixed HKDF label `x25519Label` from main.go. -/
def x25519Label : String := "age-encryption.org/v1/X25519"

/-- Byte view of a Go string literal. -/
def strBytes (s : String) : List Nat := s.data.map Char.toNat

/-! ## key derivation (deriveX25519FromMnemonic) -/

/-- Model of `copy(x25519Private, h[:32])` into a fresh 32-byte buffer:
the first 32 bytes of the source, zero padded if shorter. -/
def copyTake32 (l : List Nat) : List Nat :=
  l.take 32 ++ List.replicate (32 - (l.take 32).length) 0

/-- The clamping performed in deriveX25519FromMnemonic:
`x[0] &= 248; x[31] &= 127; x[31] |= 64`. -/
def clampScalar (l : List Nat) : List Nat :=
  let a := l.set 0 (l.getD 0 0 &&& 248)
  a.set 31 ((a.getD 31 0 &&& 127) ||| 64)

inductive DeriveErr where
  | entropyFailed
  | scalarMultFailed
deriving DecidableEq

/-- The entropy-to-keypair part of deriveX25519FromMnemonic (main.go lines
173 to 187): private scalar from SHA-512 plus clamping, public key from
scalar multiplication against the base point. -/
def deriveFromEntropy (P : CryptoPrims) (entropy : List Nat) :
    Except DeriveErr (List Nat × List Nat) :=
  let priv := clampScalar (copyTake32 (P.sha512 entropy))
  match P.x25519 priv basepoint with
  | some pub => .ok (priv, pub)
  | none => .error .scalarMultFailed

/-- Model of deriveX25519FromMnemonic. -/
def deriveX25519FromMnemonic (P : CryptoPrims) (B : Bip39Lib) (mnemonic : String) :
    Except DeriveErr (List Nat × List Nat) :=
  match B.entropyFromMnemonic mnemonic with
  | none => .error .entropyFailed
  | some entropy => deriveFromEntropy P entropy

/-! ## stanza codec (wrapX25519 / unwrapX25519) -/

/-- Model of age.Stanza: type tag, string arguments (as character-code lists) and
binary body. -/
structure Stanza where
  ty : String
  args : List (List Nat)
  body : List Nat
deriving DecidableEq

inductive StanzaErr where
  | invalidStanza
  | decodeFailed
  | badLength
  | ecdhFailed
  | authFailed
deriving DecidableEq

/-- Model of unwrapX25519. -/
def unwrapX25519 (P : CryptoPrims) (secretKey ourPublicKey : List Nat) (s : Stanza) :
    Except StanzaErr (List Nat) :=
  match s.args with
  | [arg] =>
      match b64Decode arg with
      | none => .error .decodeFailed
      | some ephemeralPub =>
          if ephemeralPub.length ≠ 32 then .error .badLength
          else
            match P.x25519 secretKey ephemeralPub with
            | none => .error .ecdhFailed
            | some sharedSecret =>
                let salt := ephemeralPub ++ ourPublicKey
                let wrappingKey := P.hkdfSha256 sharedSecret salt (strBytes x25519Label)
                match P.aeadOpen wrappingKey s.body with
                | none => .error .authFailed
                | some fileKey => .ok fileKey
  | _ => .error .invalidStanza

/-- Model of wrapX25519.  The randomly generated ephemeral key pair from
`ecdh.X25519().GenerateKey` is passed in as the pair
(private scalar bytes, public key bytes). -/
def wrapX25519 (P : CryptoPrims) (ephemeral : List Nat × List Nat)
    (recipientPubKey fileKey : List Nat) : Option (List Stanza) :=
  match P.x25519 ephemeral.1 recipientPubKey with
  | none => none
  | some sharedSecret =>
      let salt := ephemeral.2 ++ recipientPubKey
      let wrappingKey := P.hkdfSha256 sharedSecret salt (strBytes x25519Label)
      let wrappedKey := P.aeadSeal wrappingKey fileKey
      some [{ ty := "X25519", args := [b64Encode ephemeral.2], body := wrappedKey }]

/-- Model of bytesEqual from main.go: length check then element loop. -/
def bytesEqual (a b : List Nat) : Bool :=
  if a.length = b.length then (a.zip b).all (fun p => p.1 == p.2) else false

/-- The stanza loop of Bip39Identity.Unwrap (main.go lines 237 to 246):
skip stanzas of other types, try unwrapX25519 in input order, stop at the
first success.  The second component counts unwrapX25519 invocations. -/
def tryUnwrapStanzas (P : CryptoPrims) (priv pub : List Nat) :
    List Stanza → Option (List Nat) × Nat
  | [] => (none, 0)
  | s :: rest =>
      if s.ty = "X25519" then
        match unwrapX25519 P priv pub s with
        | .ok fk => (some fk, 1)
        | .error _ =>
            ((tryUnwrapStanzas P priv pub rest).1,
             (tryUnwrapStanzas P priv pub rest).2 + 1)
      else tryUnwrapStanzas P priv pub rest

/-! ## key cache (the Linux keyring file) -/

/-- Outcome of the external keyring syscalls for one name: the search can
fail (absent entry or store error), the read can fail, or a payload string
is returned (`string(buf[:n])`; an empty payload models `n <= 0`). -/
inductive KeyringResult where
  | searchFail
  | readFail
  | payload (s : String)
deriving DecidableEq

/-- External environment of the plugin process: the
AGE_PLUGIN_BIP39_CACHE variable (empty when unset), the external
`time.ParseDuration` (duration as integer nanoseconds), the keyring
behaviour, whether `unix.AddKey` succeeds, and the outcome of the plugin
prompt `RequestValue`. -/
structure PluginEnv where
  cacheVar : String
  parseDur : String → Option Int
  keyring : String → KeyringResult
  addKeyOk : Bool
  promptResult : Except Unit String

/-- Ten minutes in nanoseconds, the value of `10 * time.Minute`. -/
def tenMinutes : Int := 600000000000

/-- Model of cacheTTL. -/
def cacheTTL (env : PluginEnv) : Int :=
  if env.cacheVar = "" then tenMinutes
  else if env.cacheVar = "0" then 0
  else
    match env.parseDur env.cacheVar with
    | none => tenMinutes
    | some d => d

/-- Model of getCachedKey. -/
def getCachedKey (env : PluginEnv) (name : String) : Option (List Nat) :=
  if cacheTTL env = 0 then none
  else
    match env.keyring name with
    | .searchFail => none
    | .readFail => none
    | .payload s =>
        if s.length = 0 then none
        else
          match hexDecodeChars s.data with
          | none => none
          | some key => if key.length = 32 then some key else none

/-- Model of cacheKey: no-op when the TTL is zero or AddKey fails,
otherwise the keyring gains an entry holding the hex payload. -/
def cacheKey (env : PluginEnv) (name : String) (key : List Nat) : PluginEnv :=
  if cacheTTL env = 0 then env
  else if env.addKeyOk then
    { env with keyring := fun n =>
        if n = name then .payload (hexEncode key) else env.keyring n }
  else env

/-! ## identity adapter (Bip39Identity.Unwrap) and keygen path -/

/-- Model of `fmt.Sprintf("age-plugin-bip39:%x", si.publicKey)`. -/
def fingerprintName (pub : List Nat) : String :=
  "age-plugin-bip39:" ++ hexEncode pub

/-- The White_Space code points accepted by Go's `unicode.IsSpace`. -/
def isGoSpace (c : Char) : Bool :=
  decide (c.toNat = 9 ∨ c.toNat = 10 ∨ c.toNat = 11 ∨ c.toNat = 12 ∨
    c.toNat = 13 ∨ c.toNat = 32 ∨ c.toNat = 0x85 ∨ c.toNat = 0xa0 ∨
    c.toNat = 0x1680 ∨ (0x2000 ≤ c.toNat ∧ c.toNat ≤ 0x200a) ∨
    c.toNat = 0x2028 ∨ c.toNat = 0x2029 ∨ c.toNat = 0x202f ∨
    c.toNat = 0x205f ∨ c.toNat = 0x3000)

def trimChars (l : List Char) : List Char :=
  ((l.dropWhile isGoSpace).reverse.dropWhile isGoSpace).reverse

/-- Model of `strings.TrimSpace`. -/
def goTrimSpace (s : String) : String := String.mk (trimChars s.data)

inductive UnwrapErr where
  | incorrectIdentity
  | promptFailed
  | invalidMnemonic
  | deriveFailed
  | mnemonicMismatch
deriving DecidableEq

/-- Observable side effects of one Bip39Identity.Unwrap call: how many
cache lookups, prompts and key derivations happened, how many stanzas were
handed to unwrapX25519, and which (name, key) pairs were passed to
cacheKey. -/
structure UnwrapLog where
  cacheLookups : Nat
  prompts : Nat
  derives : Nat
  codecCalls : Nat
  cacheWrites : List (String × List Nat)
deriving DecidableEq

def emptyLog : UnwrapLog :=
  { cacheLookups := 0, prompts := 0, derives := 0, codecCalls := 0, cacheWrites := [] }

/-- Shared tail of Bip39Identity.Unwrap once a private key is in hand:
the loop result becomes the return value, a missing success is
age.ErrIncorrectIdentity. -/
def finishUnwrap (r : Option (List Nat) × Nat) (log : UnwrapLog) :
    Except UnwrapErr (List Nat) × UnwrapLog :=
  match r.1 with
  | some fk => (.ok fk, { log with codecCalls := r.2 })
  | none => (.error .incorrectIdentity, { log with codecCalls := r.2 })

/-- Model of Bip39Identity.Unwrap, instrumented with an UnwrapLog.  The
cacheKey invocation is recorded in `cacheWrites` rather than threading the
keyring state, since the claims only concern whether a write happens. -/
def bip39Unwrap (P : CryptoPrims) (B : Bip39Lib) (env : PluginEnv)
    (publicKey : List Nat) (stanzas : List Stanza) :
    Except UnwrapErr (List Nat) × UnwrapLog :=
  if stanzas.any (fun s => s.ty == "X25519") then
    match getCachedKey env (fingerprintName publicKey) with
    | some privKey =>
        finishUnwrap (tryUnwrapStanzas P privKey publicKey stanzas)
          { cacheLookups := 1, prompts := 0, derives := 0, codecCalls := 0,
            cacheWrites := [] }
    | none =>
        match env.promptResult with
        | .error _ =>
            (.error .promptFailed,
             { cacheLookups := 1, prompts := 1, derives := 0, codecCalls := 0,
               cacheWrites := [] })
        | .ok rawPhrase =>
            if B.isMnemonicValid (goTrimSpace rawPhrase) then
              match deriveX25519FromMnemonic P B (goTrimSpace rawPhrase) with
              | .error _ =>
                  (.error .deriveFailed,
                   { cacheLookups := 1, prompts := 1, derives := 1,
                     codecCalls := 0, cacheWrites := [] })
              | .ok (derivedPriv, derivedPub) =>
                  if bytesEqual derivedPub publicKey then
                    finishUnwrap (tryUnwrapStanzas P derivedPriv publicKey stanzas)
                      { cacheLookups := 1, prompts := 1, derives := 1,
                        codecCalls := 0,
                        cacheWrites := [(fingerprintName publicKey, derivedPriv)] }
                  else
                    (.error .mnemonicMismatch,
                     { cacheLookups := 1, prompts := 1, derives := 1,
                       codecCalls := 0, cacheWrites := [] })
            else
              (.error .invalidMnemonic,
               { cacheLookups := 1, prompts := 1, derives := 0, codecCalls := 0,
                 cacheWrites := [] })
  else (.error .incorrectIdentity, emptyLog)

inductive KeygenErr where
  | emptyInput
  | invalidMnemonic
  | deriveFailed
deriving DecidableEq

/-- Model of runKeygenNonInteractive composed with the key derivation in
outputIdentity; the textual identity and recipient encoders it then calls
are external, so the result here is the derived key pair itself. -/
def runKeygenNonInteractive (P : CryptoPrims) (B : Bip39Lib) (input : String) :
    Except KeygenErr (List Nat × List Nat) :=
  if goTrimSpace input = "" then .error .emptyInput
  else if B.isMnemonicValid (goTrimSpace input) then
    match deriveX25519FromMnemonic P B (goTrimSpace input) with
    | .error _ => .error .deriveFailed
    | .ok kp => .ok kp
  else .error .invalidMnemonic

/-- Restatement of the private-scalar computation in the words of the
specification, for comparison with deriveFromEntropy: the first 32 bytes
of the wide hash of the entropy, first byte ANDed with 248, last byte
ANDed with 127 then ORed with 64. -/
def specClampedScalar (P : CryptoPrims) (entropy : List Nat) : List Nat :=
  let first32 := (P.sha512 entropy).take 32
  let a := first32.set 0 (first32.getD 0 0 &&& 248)
  a.set 31 ((a.getD 31 0 &&& 127) ||| 64)

/-! ## lemmas about the base64 model -/

lemma bytesToSextets_lt (l : List Nat) (h : ∀ b ∈ l, b < 256) :
    ∀ x ∈ bytesToSextets l, x < 64 := by
  induction l using bytesToSextets.induct with
  | case1 => simp [bytesToSextets]
  | case2 a =>
      have := h a (by simp)
      simp only [bytesToSextets, List.mem_cons, List.not_mem_nil, or_false]
      rintro x (rfl | rfl) <;> omega
  | case3 a b =>
      have ha := h a (by simp)
      have hb := h b (by simp)
      simp only [bytesToSextets, List.mem_cons, List.not_mem_nil, or_false]
      rintro x (rfl | rfl | rfl) <;> omega
  | case4 a b c rest ih =>
      have ha := h a (by simp)
      have hb := h b (by simp)
      have hc := h c (by simp)
      have hrest : ∀ x ∈ rest, x < 256 := fun x hx => h x (by simp [hx])
      simp only [bytesToSextets, List.mem_cons]
      rintro x (rfl | rfl | rfl | rfl | hx)
      · omega
      · omega
      · omega
      · omega
      · exact ih hrest x hx

lemma sextets_roundtrip (l : List Nat) (h : ∀ b ∈ l, b < 256) :
    sextetsToBytes (bytesToSextets l) = some l := by
  induction l using bytesToSextets.induct with
  | case1 => rfl
  | case2 a =>
      have ha := h a (by simp)
      show sextetsToBytes [a / 4, a % 4 * 16] = some [a]
      have h1 : a % 4 * 16 % 16 = 0 := by omega
      have h2 : a / 4 * 4 + a % 4 * 16 / 16 = a := by omega
      simp [sextetsToBytes, h1, h2]
      omega
  | case3 a b =>
      have ha := h a (by simp)
      have hb := h b (by simp)
      show sextetsToBytes [a / 4, a % 4 * 16 + b / 16, b % 16 * 4] = some [a, b]
      have h1 : b % 16 * 4 % 4 = 0 := by omega
      have h2 : a / 4 * 4 + (a % 4 * 16 + b / 16) / 16 = a := by omega
      have h3 : (a % 4 * 16 + b / 16) % 16 * 16 + b % 16 * 4 / 4 = b := by omega
      simp [sextetsToBytes, h1, h2, h3]
      omega
  | case4 a b c rest ih =>
      have ha := h a (by simp)
      have hb := h b (by simp)
      have hc := h c (by simp)
      have hrest : ∀ x ∈ rest, x < 256 := fun x hx => h x (by simp [hx])
      show sextetsToBytes
          (a / 4 :: (a % 4 * 16 + b / 16) :: (b % 16 * 4 + c / 64) :: c % 64 ::
            bytesToSextets rest) = some (a :: b :: c :: rest)
      have h1 : a / 4 * 4 + (a % 4 * 16 + b / 16) / 16 = a := by omega
      have h2 : (a % 4 * 16 + b / 16) % 16 * 16 + (b % 16 * 4 + c / 64) / 4 = b := by
        omega
      have h3 : (b % 16 * 4 + c / 64) % 4 * 64 + c % 64 = c := by omega
      simp [sextetsToBytes, ih hrest, h1, h2, h3]

lemma charSextet_sextetChar : ∀ n, n < 64 → charSextet (sextetChar n) = some n := by
  decide

lemma sextetChar_not_crlf : ∀ n, n < 64 → sextetChar n ≠ 10 ∧ sextetChar n ≠ 13 := by
  decide

lemma mapCharSextet_encode (l : List Nat) (h : ∀ x ∈ l, x < 64) :
    mapCharSextet (l.map sextetChar) = some l := by
  induction l with
  | nil => rfl
  | cons a l ih =>
      have ha := h a (by simp)
      have hl : ∀ x ∈ l, x < 64 := fun x hx => h x (by simp [hx])
      simp [mapCharSextet, charSextet_sextetChar a ha, ih hl]

lemma filter_encode (l : List Nat) (h : ∀ x ∈ l, x < 64) :
    (l.map sextetChar).filter (fun c => !(c == 10) && !(c == 13)) = l.map sextetChar := by
  rw [List.filter_eq_self]
  intro c hc
  obtain ⟨x, hx, rfl⟩ := List.mem_map.mp hc
  have := sextetChar_not_crlf x (h x hx)
  simp only [Bool.and_eq_true, Bool.not_eq_true', beq_eq_false_iff_ne]
  exact ⟨this.1, this.2⟩

lemma b64_roundtrip (bs : List Nat) (h : ∀ b ∈ bs, b < 256) :
    b64Decode (b64Encode bs) = some bs := by
  unfold b64Decode b64Encode
  rw [filter_encode _ (bytesToSextets_lt bs h),
    mapCharSextet_encode _ (bytesToSextets_lt bs h)]
  simpa using sextets_roundtrip bs h

/-! ## lemmas about bytesEqual, the stanza loop, and trimming -/

def exceptIsOk {ε α : Type} : Except ε α → Bool
  | .ok _ => true
  | .error _ => false

/-- A stanza this identity can open: right type tag and a successful
unwrapX25519. -/
def stanzaHit (P : CryptoPrims) (priv pub : List Nat) (s : Stanza) : Prop :=
  s.ty = "X25519" ∧ exceptIsOk (unwrapX25519 P priv pub s) = true

instance stanzaHitDec (P : CryptoPrims) (priv pub : List Nat) (s : Stanza) :
    Decidable (stanzaHit P priv pub s) := by
  unfold stanzaHit
  infer_instance

lemma zip_all_eq : ∀ (a b : List Nat), a.length = b.length →
    (((a.zip b).all fun p => p.1 == p.2) = true ↔ a = b)
  | [], [] => by simp
  | [], _ :: _ => by simp
  | _ :: _, [] => by simp
  | a :: as, b :: bs => by
      intro h
      simp only [List.zip_cons_cons, List.all_cons, Bool.and_eq_true, beq_iff_eq,
        List.cons.injEq]
      rw [zip_all_eq as bs (by simpa using h)]

lemma bytesEqual_iff (a b : List Nat) : bytesEqual a b = true ↔ a = b := by
  unfold bytesEqual
  by_cases h : a.length = b.length
  · rw [if_pos h]
    exact zip_all_eq a b h
  · rw [if_neg h]
    constructor
    · intro hf; simp at hf
    · rintro rfl; exact absurd rfl h

lemma tryUnwrap_nohit_cons (P : CryptoPrims) (priv pub : List Nat) (s : Stanza)
    (rest : List Stanza) (hs : ¬ stanzaHit P priv pub s) :
    (tryUnwrapStanzas P priv pub (s :: rest)).1 =
      (tryUnwrapStanzas P priv pub rest).1 := by
  by_cases hty : s.ty = "X25519"
  · cases hu : unwrapX25519 P priv pub s with
    | error e => simp [tryUnwrapStanzas, hty, hu]
    | ok fk => exact absurd ⟨hty, by rw [hu]; rfl⟩ hs
  · simp [tryUnwrapStanzas, hty]

lemma tryUnwrap_none_iff (P : CryptoPrims) (priv pub : List Nat) :
    ∀ l : List Stanza,
      ((tryUnwrapStanzas P priv pub l).1 = none ↔
        ∀ t ∈ l, ¬ stanzaHit P priv pub t) := by
  intro l
  induction l with
  | nil => simp [tryUnwrapStanzas]
  | cons s rest ih =>
      by_cases hty : s.ty = "X25519"
      · cases hu : unwrapX25519 P priv pub s with
        | ok fk =>
            have hhit : stanzaHit P priv pub s := ⟨hty, by rw [hu]; rfl⟩
            simp only [tryUnwrapStanzas, if_pos hty, hu]
            constructor
            · intro hc; simp at hc
            · intro hall; exact absurd hhit (hall s (by simp))
        | error e =>
            have hnohit : ¬ stanzaHit P priv pub s := by
              rintro ⟨h1, h2⟩
              rw [hu] at h2
              simp [exceptIsOk] at h2
            simp only [tryUnwrapStanzas, if_pos hty, hu]
            rw [ih]
            constructor
            · intro hall t ht
              rcases List.mem_cons.mp ht with rfl | ht2
              · exact hnohit
              · exact hall t ht2
            · intro hall t ht
              exact hall t (by simp [ht])
      · have hnohit : ¬ stanzaHit P priv pub s := by
          rintro ⟨h1, _⟩
          exact hty h1
        simp only [tryUnwrapStanzas, if_neg hty]
        rw [ih]
        constructor
        · intro hall t ht
          rcases List.mem_cons.mp ht with rfl | ht2
          · exact hnohit
          · exact hall t ht2
        · intro hall t ht
          exact hall t (by simp [ht])

lemma tryUnwrap_append_nohit (P : CryptoPrims) (priv pub : List Nat)
    (l1 r : List Stanza) (h : ∀ t ∈ l1, ¬ stanzaHit P priv pub t) :
    (tryUnwrapStanzas P priv pub (l1 ++ r)).1 =
      (tryUnwrapStanzas P priv pub r).1 := by
  induction l1 with
  | nil => rfl
  | cons s l1 ih =>
      rw [List.cons_append,
        tryUnwrap_nohit_cons P priv pub s (l1 ++ r) (h s (by simp)),
        ih (fun t ht => h t (by simp [ht]))]

lemma tryUnwrap_hit_cons (P : CryptoPrims) (priv pub : List Nat) (s : Stanza)
    (l2 : List Stanza) (fk : List Nat) (hty : s.ty = "X25519")
    (hu : unwrapX25519 P priv pub s = .ok fk) :
    (tryUnwrapStanzas P priv pub (s :: l2)).1 = some fk := by
  simp [tryUnwrapStanzas, hty, hu]

lemma dropWhile_append_all {p : Char → Bool} (w x : List Char)
    (h : ∀ c ∈ w, p c = true) :
    List.dropWhile p (w ++ x) = List.dropWhile p x := by
  induction w with
  | nil => rfl
  | cons a w ih =>
      rw [List.cons_append, List.dropWhile_cons_of_pos (h a (by simp))]
      exact ih (fun c hc => h c (by simp [hc]))

lemma dropWhile_all_nil {p : Char → Bool} (w : List Char)
    (h : ∀ c ∈ w, p c = true) : List.dropWhile p w = [] := by
  simpa using dropWhile_append_all w [] h

lemma dropWhile_append_stops {p : Char → Bool} (x y : List Char)
    (h : ∃ c ∈ x, p c = false) :
    List.dropWhile p (x ++ y) = List.dropWhile p x ++ y := by
  induction x with
  | nil => simp at h
  | cons a x ih =>
      by_cases hpa : p a = true
      · obtain ⟨c, hc, hcf⟩ := h
        rcases List.mem_cons.mp hc with rfl | hc2
        · rw [hpa] at hcf; simp at hcf
        · rw [List.cons_append, List.dropWhile_cons_of_pos hpa,
            List.dropWhile_cons_of_pos hpa]
          exact ih ⟨c, hc2, hcf⟩
      · rw [List.cons_append, List.dropWhile_cons_of_neg hpa,
          List.dropWhile_cons_of_neg hpa, List.cons_append]

lemma trimChars_pad (w1 l w2 : List Char)
    (h1 : ∀ c ∈ w1, isGoSpace c = true) (h2 : ∀ c ∈ w2, isGoSpace c = true) :
    trimChars (w1 ++ l ++ w2) = trimChars l := by
  unfold trimChars
  by_cases hall : ∀ c ∈ l, isGoSpace c = true
  · have e1 : List.dropWhile isGoSpace (w1 ++ (l ++ w2)) = [] := by
      apply dropWhile_all_nil
      intro c hc
      rcases List.mem_append.mp hc with hw | hlw
      · exact h1 c hw
      · rcases List.mem_append.mp hlw with hl | hw2
        · exact hall c hl
        · exact h2 c hw2
    rw [List.append_assoc, e1, dropWhile_all_nil l hall]
  · push_neg at hall
    obtain ⟨c, hc, hcf⟩ := hall
    have hcf2 : isGoSpace c = false := by
      revert hcf; cases isGoSpace c <;> simp
    rw [List.append_assoc, dropWhile_append_all w1 (l ++ w2) h1,
      dropWhile_append_stops l w2 ⟨c, hc, hcf2⟩, List.reverse_append,
      dropWhile_append_all w2.reverse _
        (fun d hd => h2 d (List.mem_reverse.mp hd))]

lemma string_data_append (a b : String) : (a ++ b).data = a.data ++ b.data := by
  cases a; cases b; rfl

lemma goTrimSpace_pad (w1 s w2 : String)
    (h1 : ∀ c ∈ w1.data, isGoSpace c = true)
    (h2 : ∀ c ∈ w2.data, isGoSpace c = true) :
    goTrimSpace (w1 ++ s ++ w2) = goTrimSpace s := by
  unfold goTrimSpace
  congr 1
  rw [string_data_append, string_data_append]
  exact trimChars_pad w1.data s.data w2.data h1 h2

lemma copyTake32_of_long (l : List Nat) (h : 32 ≤ l.length) :
    copyTake32 l = l.take 32 := by
  simp [copyTake32, List.length_take, Nat.min_eq_left h]

instance exceptDecEq {ε α : Type} [DecidableEq ε] [DecidableEq α] :
    DecidableEq (Except ε α) := fun x y =>
  match x, y with
  | .ok a, .ok b =>
      if h : a = b then .isTrue (by rw [h])
      else .isFalse (fun hc => h (by injection hc))
  | .error a, .error b =>
      if h : a = b then .isTrue (by rw [h])
      else .isFalse (fun hc => h (by injection hc))
  | .ok _, .error _ => .isFalse (fun hc => Except.noConfusion hc)
  | .error _, .ok _ => .isFalse (fun hc => Except.noConfusion hc)

/-! ## concrete instances used to witness the theorems -/

/-- Little-endian byte-sequence value. -/
def bytesToNat : List Nat → Nat
  | [] => 0
  | b :: r => b + 256 * bytesToNat r

/-- Little-endian 32-byte encoding of a number. -/
def natToBytes32 (n : Nat) : List Nat :=
  (List.range 32).map (fun i => n / 256 ^ i % 256)

/-- A small concrete instantiation of the external primitives, adequate to
witness the theorems: the Diffie-Hellman map is multiplication modulo
2 to the 256 over little-endian bytes, and the AEAD is the identity. -/
def toyPrims : CryptoPrims where
  sha512 := fun l => ((l ++ l) ++ List.replicate 64 0).take 64
  x25519 := fun s p => some (natToBytes32 (bytesToNat s * bytesToNat p % 2 ^ 256))
  hkdfSha256 := fun ikm salt info => ((ikm ++ salt ++ info) ++ List.replicate 32 0).take 32
  aeadSeal := fun _ m => m
  aeadOpen := fun _ c => some c

/-- A concrete word-list library recognising a single mnemonic. -/
def toyBip : Bip39Lib where
  isMnemonicValid := fun m => m == "seed"
  entropyFromMnemonic := fun m =>
    if m = "seed" then some (List.replicate 32 7) else none

/-- A concrete plugin environment for witnesses. -/
def toyEnv : PluginEnv where
  cacheVar := ""
  parseDur := fun _ => none
  keyring := fun _ => .searchFail
  addKeyOk := true
  promptResult := .error ()

def wEntropy : List Nat := List.replicate 32 7

def wPriv : List Nat := clampScalar (copyTake32 (toyPrims.sha512 wEntropy))

def wPub : List Nat := natToBytes32 (bytesToNat wPriv * 9 % 2 ^ 256)

def wOtherStanza : Stanza := { ty := "scrypt", args := [], body := [] }

def wBadStanza : Stanza := { ty := "X25519", args := [[33]], body := [] }

/-! ## the claims -/

/-- Claim C8: for every 32-byte entropy value, two invocations of the derivation
on that entropy yield byte-for-byte identical private and public keys. -/
theorem derive_deterministic (P : CryptoPrims) (e priv1 pub1 priv2 pub2 : List Nat)
    (he : e.length = 32)
    (h1 : deriveFromEntropy P e = .ok (priv1, pub1))
    (h2 : deriveFromEntropy P e = .ok (priv2, pub2)) :
    priv1 = priv2 ∧ pub1 = pub2 := by
  rw [h1] at h2
  injection h2 with hpair
  injection hpair with hpriv hpub
  exact ⟨hpriv, hpub⟩

/-- Witness for derive_deterministic at the toy primitives. -/
theorem derive_deterministic_witness : wPriv = wPriv ∧ wPub = wPub :=
  derive_deterministic toyPrims wEntropy wPriv wPub wPriv wPub (by decide)
    (by decide) (by decide)

/-- Claim C2: given the entropy of a mnemonic, the derivation computes the
private scalar as the first 32 bytes of the SHA-512 hash of the entropy
with byte 0 ANDed with 248 and byte 31 ANDed with 127 then ORed with 64,
and the public key as X25519 scalar multiplication of that clamped scalar
against the fixed base point. -/
theorem derive_formula (P : CryptoPrims) (B : Bip39Lib) (m : String)
    (e priv pub : List Nat)
    (he : e.length = 32) (hsha : 32 ≤ (P.sha512 e).length)
    (hB : B.entropyFromMnemonic m = some e)
    (hd : deriveFromEntropy P e = .ok (priv, pub)) :
    deriveX25519FromMnemonic P B m = .ok (priv, pub) ∧
    priv = specClampedScalar P e ∧
    P.x25519 priv basepoint = some pub := by
  have hspec : clampScalar (copyTake32 (P.sha512 e)) = specClampedScalar P e := by
    rw [copyTake32_of_long _ hsha]
    rfl
  have h1 : deriveX25519FromMnemonic P B m = .ok (priv, pub) := by
    unfold deriveX25519FromMnemonic
    rw [hB]
    exact hd
  simp only [deriveFromEntropy] at hd
  split at hd
  · rename_i pub2 heq
    injection hd with hpair
    injection hpair with hpriv hpub
    refine ⟨h1, ?_, ?_⟩
    · rw [← hpriv, hspec]
    · rw [← hpriv, heq, hpub]
  · simp at hd

/-- Witness for derive_formula at the toy primitives. -/
theorem derive_formula_witness :
    deriveX25519FromMnemonic toyPrims toyBip "seed" = .ok (wPriv, wPub) ∧
    wPriv = specClampedScalar toyPrims wEntropy ∧
    toyPrims.x25519 wPriv basepoint = some wPub :=
  derive_formula toyPrims toyBip "seed" wEntropy wPriv wPub (by decide) (by decide)
    (by decide) (by decide)

/-- Claim C9: an input stanza sequence with no stanza of type X25519 makes
Bip39Identity.Unwrap return IncorrectIdentity immediately, before any
cache lookup, prompt, key derivation or decryption attempt. -/
theorem no_x25519_immediate (P : CryptoPrims) (B : Bip39Lib) (env : PluginEnv)
    (pub : List Nat) (stanzas : List Stanza)
    (h : ∀ s ∈ stanzas, s.ty ≠ "X25519") :
    bip39Unwrap P B env pub stanzas = (.error .incorrectIdentity, emptyLog) := by
  have hany : stanzas.any (fun s => s.ty == "X25519") = false := by
    rw [List.any_eq_false]
    intro s hs
    simpa using h s hs
  simp [bip39Unwrap, hany]

/-- Witness for no_x25519_immediate. -/
theorem no_x25519_immediate_witness :
    bip39Unwrap toyPrims toyBip toyEnv (List.replicate 32 1) [wOtherStanza] =
      (.error .incorrectIdentity, emptyLog) :=
  no_x25519_immediate toyPrims toyBip toyEnv (List.replicate 32 1) [wOtherStanza]
    (by decide)

/-- Claim C7: cacheTTL maps an unset variable to ten minutes, the string "0" to
zero (disabled), a parseable duration to that duration, and an unparseable
value back to the ten-minute default; with a zero TTL, cacheKey is a
silent no-op and getCachedKey reports no cached key. -/
theorem cache_ttl_policy (envU env0 envP envN envZ : PluginEnv) (d : Int)
    (name : String) (key : List Nat)
    (hU : envU.cacheVar = "")
    (h0 : env0.cacheVar = "0")
    (hPa : envP.cacheVar ≠ "") (hPb : envP.cacheVar ≠ "0")
    (hP : envP.parseDur envP.cacheVar = some d)
    (hNa : envN.cacheVar ≠ "") (hNb : envN.cacheVar ≠ "0")
    (hN : envN.parseDur envN.cacheVar = none)
    (hZ : cacheTTL envZ = 0) :
    cacheTTL envU = tenMinutes ∧ cacheTTL env0 = 0 ∧ cacheTTL envP = d ∧
    cacheTTL envN = tenMinutes ∧
    cacheKey envZ name key = envZ ∧ getCachedKey envZ name = none := by
  refine ⟨?_, ?_, ?_, ?_, ?_, ?_⟩
  · simp [cacheTTL, hU]
  · simp [cacheTTL, h0]
  · simp [cacheTTL, hPa, hPb, hP]
  · simp [cacheTTL, hNa, hNb, hN]
  · simp [cacheKey, hZ]
  · simp [getCachedKey, hZ]

def wEnv0 : PluginEnv := { toyEnv with cacheVar := "0" }

def wEnvP : PluginEnv where
  cacheVar := "5m"
  parseDur := fun v => if v = "5m" then some 300000000000 else none
  keyring := fun _ => .searchFail
  addKeyOk := true
  promptResult := .error ()

def wEnvN : PluginEnv := { toyEnv with cacheVar := "bogus" }

/-- Witness for cache_ttl_policy. -/
theorem cache_ttl_policy_witness :
    cacheTTL toyEnv = tenMinutes ∧ cacheTTL wEnv0 = 0 ∧
    cacheTTL wEnvP = 300000000000 ∧ cacheTTL wEnvN = tenMinutes ∧
    cacheKey wEnv0 "n" [] = wEnv0 ∧ getCachedKey wEnv0 "n" = none :=
  cache_ttl_policy toyEnv wEnv0 wEnvP wEnvN wEnv0 300000000000 "n" []
    (by decide) (by decide) (by decide) (by decide) (by decide) (by decide)
    (by decide) (by decide) (by decide)

/-- Claim C6: every failure mode of the cache lookup (absent entry, store
lookup error, empty payload, malformed payload, decoded length other than
32) uniformly yields no cached key, and a successful lookup always returns
a 32-byte key. -/
theorem cache_get_robust (env1 env2 env3 env4 env5 env6 : PluginEnv)
    (n1 n2 n3 n4 n5 n6 : String) (s4 s5 : String) (k5 k : List Nat)
    (h1 : env1.keyring n1 = .searchFail)
    (h2 : env2.keyring n2 = .readFail)
    (h3 : env3.keyring n3 = .payload "")
    (h4 : env4.keyring n4 = .payload s4) (h4d : hexDecodeChars s4.data = none)
    (h5 : env5.keyring n5 = .payload s5) (h5d : hexDecodeChars s5.data = some k5)
    (h5l : k5.length ≠ 32)
    (h6 : getCachedKey env6 n6 = some k) :
    getCachedKey env1 n1 = none ∧ getCachedKey env2 n2 = none ∧
    getCachedKey env3 n3 = none ∧ getCachedKey env4 n4 = none ∧
    getCachedKey env5 n5 = none ∧ k.length = 32 := by
  refine ⟨?_, ?_, ?_, ?_, ?_, ?_⟩
  · simp [getCachedKey, h1]
  · simp [getCachedKey, h2]
  · simp [getCachedKey, h3]
  · simp [getCachedKey, h4, h4d]
  · simp [getCachedKey, h5, h5d, h5l]
  · simp only [getCachedKey] at h6
    split at h6
    · simp at h6
    · split at h6
      · simp at h6
      · simp at h6
      · split at h6
        · simp at h6
        · split at h6
          · simp at h6
          · split at h6
            · injection h6 with hk
              rename_i hlen
              rw [← hk]
              exact hlen
            · simp at h6

def wEnvRead : PluginEnv := { toyEnv with keyring := fun _ => .readFail }

def wEnvEmpty : PluginEnv := { toyEnv with keyring := fun _ => .payload "" }

def wEnvBadHex : PluginEnv := { toyEnv with keyring := fun _ => .payload "zz" }

def wEnvShort : PluginEnv := { toyEnv with keyring := fun _ => .payload "00" }

def wGoodStanza : Stanza :=
  { ty := "X25519", args := [b64Encode (natToBytes32 11)], body := [1, 2, 3] }

def wEnvHit : PluginEnv :=
  { toyEnv with keyring := fun _ => .payload (String.mk (List.replicate 64 '0')) }

/-- Witness for cache_get_robust. -/
theorem cache_get_robust_witness :
    getCachedKey toyEnv "n" = none ∧ getCachedKey wEnvRead "n" = none ∧
    getCachedKey wEnvEmpty "n" = none ∧ getCachedKey wEnvBadHex "n" = none ∧
    getCachedKey wEnvShort "n" = none ∧ (List.replicate 32 0).length = 32 :=
  cache_get_robust toyEnv wEnvRead wEnvEmpty wEnvBadHex wEnvShort wEnvHit
    "n" "n" "n" "n" "n" "n" "zz" "00" [0] (List.replicate 32 0)
    (by decide) (by decide) (by decide) (by decide) (by decide) (by decide)
    (by decide) (by decide) (by decide)

/-- Claim C4: during unwrap, a stanza of type X25519 whose argument fails base64
decoding, or decodes to a length other than 32, is skipped: the remaining
stanzas are still tried and the malformed stanza never aborts the whole
operation. -/
theorem malformed_stanza_skipped (P : CryptoPrims) (priv pub : List Nat)
    (s : Stanza) (arg : List Nat) (rest : List Stanza)
    (hty : s.ty = "X25519") (hargs : s.args = [arg])
    (hbad : b64Decode arg = none ∨
      ∃ bs, b64Decode arg = some bs ∧ bs.length ≠ 32) :
    (tryUnwrapStanzas P priv pub (s :: rest)).1 =
      (tryUnwrapStanzas P priv pub rest).1 := by
  apply tryUnwrap_nohit_cons
  rintro ⟨-, hok⟩
  simp only [unwrapX25519, hargs] at hok
  rcases hbad with hn | ⟨bs, hsome, hlen⟩
  · rw [hn] at hok
    simp [exceptIsOk] at hok
  · rw [hsome] at hok
    simp [exceptIsOk, hlen] at hok

/-- Witness for malformed_stanza_skipped. -/
theorem malformed_stanza_skipped_witness :
    (tryUnwrapStanzas toyPrims wPriv wPub [wBadStanza, wOtherStanza]).1 =
      (tryUnwrapStanzas toyPrims wPriv wPub [wOtherStanza]).1 :=
  malformed_stanza_skipped toyPrims wPriv wPub wBadStanza [33] [wOtherStanza]
    (by decide) (by decide) (Or.inl (by decide))

/-- Claim C3: with a matching key pair in hand (here from the cache), the unwrap
of a stanza sequence returns the file key of the first stanza in input
order that unwraps successfully, and fails with IncorrectIdentity exactly
when no stanza in the sequence succeeds. -/
theorem unwrap_first_success (P : CryptoPrims) (B : Bip39Lib) (env : PluginEnv)
    (pub priv fk : List Nat) (stanzas l1 l2 : List Stanza) (s : Stanza)
    (hc : getCachedKey env (fingerprintName pub) = some priv) :
    (stanzas = l1 ++ s :: l2 → (∀ t ∈ l1, ¬ stanzaHit P priv pub t) →
      s.ty = "X25519" → unwrapX25519 P priv pub s = .ok fk →
      (bip39Unwrap P B env pub stanzas).1 = .ok fk) ∧
    ((bip39Unwrap P B env pub stanzas).1 = .error .incorrectIdentity ↔
      ∀ t ∈ stanzas, ¬ stanzaHit P priv pub t) := by
  by_cases hany : stanzas.any (fun t => t.ty == "X25519") = true
  · have hbody : bip39Unwrap P B env pub stanzas =
        finishUnwrap (tryUnwrapStanzas P priv pub stanzas)
          { cacheLookups := 1, prompts := 0, derives := 0, codecCalls := 0,
            cacheWrites := [] } := by
      simp [bip39Unwrap, hany, hc]
    constructor
    · rintro rfl hl1 hty hu
      have hres : (tryUnwrapStanzas P priv pub (l1 ++ s :: l2)).1 = some fk := by
        rw [tryUnwrap_append_nohit P priv pub l1 _ hl1,
          tryUnwrap_hit_cons P priv pub s l2 fk hty hu]
      rw [hbody]
      simp [finishUnwrap, hres]
    · rw [hbody]
      cases hr : (tryUnwrapStanzas P priv pub stanzas).1 with
      | some fk2 =>
          simp only [finishUnwrap, hr]
          constructor
          · intro hcontra
            simp at hcontra
          · intro hall
            have := (tryUnwrap_none_iff P priv pub stanzas).mpr hall
            rw [hr] at this
            simp at this
      | none =>
          simp only [finishUnwrap, hr]
          constructor
          · intro _
            exact (tryUnwrap_none_iff P priv pub stanzas).mp hr
          · intro _
            trivial
  · have hanyf : stanzas.any (fun t => t.ty == "X25519") = false := by
      revert hany
      cases stanzas.any (fun t => t.ty == "X25519") <;> simp
    have hmem : ∀ t ∈ stanzas, t.ty ≠ "X25519" := by
      intro t ht
      simpa using (List.any_eq_false.mp hanyf) t ht
    have hres : bip39Unwrap P B env pub stanzas =
        (.error .incorrectIdentity, emptyLog) := by
      simp [bip39Unwrap, hanyf]
    constructor
    · rintro rfl hl1 hty hu
      exact absurd hty (hmem s (by simp))
    · rw [hres]
      constructor
      · rintro - t ht ⟨hty2, -⟩
        exact (hmem t ht) hty2
      · intro _
        rfl

/-- Witness for unwrap_first_success: a failing stanza followed by one
that unwraps, with the private key served from the cache. -/
theorem unwrap_first_success_witness :
    ([wBadStanza, wGoodStanza] = [wBadStanza] ++ wGoodStanza :: [] →
      (∀ t ∈ [wBadStanza], ¬ stanzaHit toyPrims (List.replicate 32 0) wPub t) →
      wGoodStanza.ty = "X25519" →
      unwrapX25519 toyPrims (List.replicate 32 0) wPub wGoodStanza = .ok [1, 2, 3] →
      (bip39Unwrap toyPrims toyBip wEnvHit wPub [wBadStanza, wGoodStanza]).1 =
        .ok [1, 2, 3]) ∧
    ((bip39Unwrap toyPrims toyBip wEnvHit wPub [wBadStanza, wGoodStanza]).1 =
        .error .incorrectIdentity ↔
      ∀ t ∈ [wBadStanza, wGoodStanza],
        ¬ stanzaHit toyPrims (List.replicate 32 0) wPub t) :=
  unwrap_first_success toyPrims toyBip wEnvHit wPub (List.replicate 32 0) [1, 2, 3]
    [wBadStanza, wGoodStanza] [wBadStanza] [] wGoodStanza (by decide)

/-- Claim C5: a cached-key miss followed by a valid phrase whose derived public
key differs from the stored one makes Bip39Identity.Unwrap return the
distinct MnemonicMismatch error, with no stanza handed to the codec and no
cache write. -/
theorem mnemonic_mismatch_before_codec (P : CryptoPrims) (B : Bip39Lib)
    (env : PluginEnv) (pub dpriv dpub : List Nat) (stanzas : List Stanza)
    (rawPhrase : String)
    (hany : stanzas.any (fun t => t.ty == "X25519") = true)
    (hc : getCachedKey env (fingerprintName pub) = none)
    (hp : env.promptResult = .ok rawPhrase)
    (hv : B.isMnemonicValid (goTrimSpace rawPhrase) = true)
    (hd : deriveX25519FromMnemonic P B (goTrimSpace rawPhrase) = .ok (dpriv, dpub))
    (hm : dpub ≠ pub) :
    bip39Unwrap P B env pub stanzas =
      (.error .mnemonicMismatch,
       { cacheLookups := 1, prompts := 1, derives := 1, codecCalls := 0,
         cacheWrites := [] }) := by
  have hbe : bytesEqual dpub pub = false := by
    cases hbe : bytesEqual dpub pub with
    | false => rfl
    | true => exact absurd ((bytesEqual_iff dpub pub).mp hbe) hm
  simp [bip39Unwrap, hany, hc, hp, hv, hd, hbe]

/-- Witness for mnemonic_mismatch_before_codec. -/
theorem mnemonic_mismatch_before_codec_witness :
    bip39Unwrap toyPrims toyBip
        { toyEnv with promptResult := .ok "seed" } (List.replicate 32 1)
        [wBadStanza] =
      (.error .mnemonicMismatch,
       { cacheLookups := 1, prompts := 1, derives := 1, codecCalls := 0,
         cacheWrites := [] }) :=
  mnemonic_mismatch_before_codec toyPrims toyBip
    { toyEnv with promptResult := .ok "seed" } (List.replicate 32 1) wPriv wPub
    [wBadStanza] "seed" (by decide) (by decide) (by decide) (by decide)
    (by decide) (by decide)

lemma bip39Unwrap_prompt_congr (P : CryptoPrims) (B : Bip39Lib) (env : PluginEnv)
    (pub : List Nat) (stanzas : List Stanza) (a b : String)
    (h : goTrimSpace a = goTrimSpace b) :
    bip39Unwrap P B { env with promptResult := .ok a } pub stanzas =
      bip39Unwrap P B { env with promptResult := .ok b } pub stanzas := by
  simp only [bip39Unwrap, getCachedKey, cacheTTL]
  rw [h]

/-- Claim C10: validation and key derivation are invariant under leading and
trailing whitespace: both the non-interactive keygen path and
Bip39Identity.Unwrap trim the supplied phrase first, so surrounding
whitespace changes neither outcome. -/
theorem trim_whitespace_invariant (P : CryptoPrims) (B : Bip39Lib)
    (env : PluginEnv) (pub : List Nat) (stanzas : List Stanza) (w1 s w2 : String)
    (h1 : ∀ c ∈ w1.data, isGoSpace c = true)
    (h2 : ∀ c ∈ w2.data, isGoSpace c = true) :
    runKeygenNonInteractive P B (w1 ++ s ++ w2) = runKeygenNonInteractive P B s ∧
    bip39Unwrap P B { env with promptResult := .ok (w1 ++ s ++ w2) } pub stanzas =
      bip39Unwrap P B { env with promptResult := .ok s } pub stanzas := by
  have ht := goTrimSpace_pad w1 s w2 h1 h2
  constructor
  · unfold runKeygenNonInteractive
    rw [ht]
  · exact bip39Unwrap_prompt_congr P B env pub stanzas (w1 ++ s ++ w2) s ht

/-- Witness for trim_whitespace_invariant. -/
theorem trim_whitespace_invariant_witness :
    runKeygenNonInteractive toyPrims toyBip (" " ++ "seed" ++ "\n") =
      runKeygenNonInteractive toyPrims toyBip "seed" ∧
    bip39Unwrap toyPrims toyBip
        { toyEnv with promptResult := .ok (" " ++ "seed" ++ "\n") }
        (List.replicate 32 1) [wBadStanza] =
      bip39Unwrap toyPrims toyBip { toyEnv with promptResult := .ok "seed" }
        (List.replicate 32 1) [wBadStanza] :=
  trim_whitespace_invariant toyPrims toyBip toyEnv (List.replicate 32 1)
    [wBadStanza] " " "seed" "\n" (by decide) (by decide)

/-- Claim C1: wrapping a 16-to-32-byte file key to a recipient public key
produced by the derivation, then unwrapping the resulting stanza with the
matching private key and the same public key, returns exactly the file
key.  The Diffie-Hellman agreement of the external curve on honestly
generated keys is a hypothesis. -/
theorem round_trip_wrap_unwrap (P : CryptoPrims)
    (e rPriv R ephPriv ephPub ss K : List Nat)
    (hder : deriveFromEntropy P e = .ok (rPriv, R))
    (heph : P.x25519 ephPriv basepoint = some ephPub)
    (hlen : ephPub.length = 32)
    (hbytes : ∀ b ∈ ephPub, b < 256)
    (hss1 : P.x25519 ephPriv R = some ss)
    (hss2 : P.x25519 rPriv ephPub = some ss)
    (haead : ∀ k m, P.aeadOpen k (P.aeadSeal k m) = some m)
    (hK1 : 16 ≤ K.length) (hK2 : K.length ≤ 32) :
    (wrapX25519 P (ephPriv, ephPub) R K).bind
        (fun sts => (tryUnwrapStanzas P rPriv R sts).1) = some K := by
  have hu : unwrapX25519 P rPriv R
      { ty := "X25519", args := [b64Encode ephPub],
        body := P.aeadSeal (P.hkdfSha256 ss (ephPub ++ R) (strBytes x25519Label)) K } =
      .ok K := by
    simp only [unwrapX25519, b64_roundtrip ephPub hbytes, hlen, hss2, haead]
    simp
  simp only [wrapX25519, hss1, Option.some_bind]
  exact tryUnwrap_hit_cons P rPriv R _ [] K rfl hu

def wEphPriv : List Nat := natToBytes32 3

def wEphPub : List Nat := natToBytes32 27

def wSS : List Nat := natToBytes32 (bytesToNat wEphPriv * bytesToNat wPub % 2 ^ 256)

def wFileKey : List Nat := List.replicate 16 5

/-- Witness for round_trip_wrap_unwrap at the toy primitives. -/
theorem round_trip_wrap_unwrap_witness :
    (wrapX25519 toyPrims (wEphPriv, wEphPub) wPub wFileKey).bind
        (fun sts => (tryUnwrapStanzas toyPrims wPriv wPub sts).1) = some wFileKey :=
  round_trip_wrap_unwrap toyPrims wEntropy wPriv wPub wEphPriv wEphPub wSS wFileKey
    (by decide) (by decide) (by decide) (by decide) (by decide) (by decide)
    (fun k m => rfl) (by decide) (by decide)

end AgePluginBip39
